import Mathlib

/-
Verification of the variable substrate of the mosn/pkg repository
(package `variable`, files api.go, factory.go, builtin.go, var.go and the
protocol-resource adapter).

The embedding is shallow: Go's `interface\x7b\x7d` values become `GoValue`,
the process-wide registry (`variables`, `prefixVariables`,
`indexedVariables`, `protocolVar`, `GetProtocol`) becomes the `Globals`
record, and the per-context slot arrays live in an explicit `Heap` so that
pointer aliasing between contexts is representable: a context holds a
pointer (index) into the heap, exactly as a Go context holds a slice
reference under the reserved key `KeyVariables`.

Getter and setter callbacks are modelled as pure Lean functions of the
ambient (non-slot) part of the context; the slot cell they receive is
passed by value and the engine writes the resulting cell back, which
matches the engine's own writes in api.go (the engine overwrites
`data`/`Valid` itself after a getter returns, and the setter returns the
cell it stored).  A `none` in the ambient argument stands for a Go nil
context.  Go panics (nil dereference, index out of range) are modelled by
the `GoRes.panic` outcome.
-/

namespace Mosn

/-- Dynamic Go value, restricted to the kinds the claims exercise. -/
inductive GoValue where
  | vnil
  | vstr (s : String)
  | vint (n : Int)
deriving DecidableEq, Repr

/-- Modelled from the spec: the `IndexedValue` struct of the missing
types.go declaration file; its two fields (`data`, `Valid`) are the ones
every use in api.go touches, and the spec's data model lists exactly
`data` and `valid`. -/
structure IndexedValue where
  data  : GoValue
  Valid : Bool
deriving DecidableEq, Repr

/-- The ambient (non-slot) key-value payload of a Go context.  In the
engine an `Option Ambient` is passed to getters and setters; `none`
stands for a Go nil context. -/
abbrev Ambient := List (String × GoValue)

/-- GetterFunc from var.go: `(ctx, *IndexedValue, data) -> (interface, error)`. -/
abbrev GetterFunc := Option Ambient → Option IndexedValue → GoValue → Except String GoValue

/-- StringGetterFunc from var.go. -/
abbrev StringGetterFunc := Option Ambient → Option IndexedValue → GoValue → Except String String

/-- SetterFunc from var.go: the Go setter writes through the cell pointer;
here it returns the new cell. -/
abbrev SetterFunc := Option Ambient → IndexedValue → GoValue → Except String IndexedValue

/-- StringSetterFunc from var.go. -/
abbrev StringSetterFunc := Option Ambient → IndexedValue → String → Except String IndexedValue

-- Error message constants from factory.go.
def errVariableDuplicated : String := "duplicate variable register, name: "
def errVariableNotRegister : String := "override unregistered variable, name: "
def errPrefixDuplicated : String := "duplicate prefix variable register, prefix: "
def errPrefixNotRegister : String := "override unregistered prefix variable, prefix: "
def errUndefinedVariable : String := "undefined variable, name: "
def errInvalidContext : String := "invalid context"
def errNoVariablesInContext : String := "no variables found in context"
def errSupportIndexedOnly : String := "this operation only support indexed variable"
def errSetterNotFound : String := "setter function undefined, variable name: "
def errValueNotFound : String := "variable value not found, variable name: "
def errVariableNotString : String := "variable type is not string"
def errValueNotString : String := "set string variable with non-string type"
def invalidVariableIndexMsg : String := "get variable support name index or variable directly"
def errNoGetProtocolMsg : String := "no way to get protocol, get protocol resource variable failed"
def errUnregisterProtocolResource : String := "unregister Protocol resource, Protocol: "

/-- getterImpl from var.go: a string getter, an interface getter, or neither. -/
structure GetterImpl where
  name : String
  strGetter : Option StringGetterFunc := none
  getter : Option GetterFunc := none

/-- getterImpl.Get from var.go: prefer the string getter, else the
interface getter, else the value-not-found error. -/
def GetterImpl.get (g : GetterImpl) (amb : Option Ambient) (value : Option IndexedValue)
    (data : GoValue) : Except String GoValue :=
  match g.strGetter with
  | some sg => (sg amb value data).map GoValue.vstr
  | none =>
    match g.getter with
    | some gf => gf amb value data
    | none => Except.error (errValueNotFound ++ g.name)

/-- setterImpl from var.go. -/
structure SetterImpl where
  name : String
  strSetter : Option StringSetterFunc := none
  setter : Option SetterFunc := none

/-- setterImpl.Set from var.go: a string setter rejects non-string values
with errValueNotString without running; else the interface setter; else
the setter-not-found error. -/
def SetterImpl.set (s : SetterImpl) (amb : Option Ambient) (vv : IndexedValue)
    (value : GoValue) : Except String IndexedValue :=
  match s.strSetter with
  | some ss =>
    match value with
    | GoValue.vstr v => ss amb vv v
    | _ => Except.error errValueNotString
  | none =>
    match s.setter with
    | some sf => sf amb vv value
    | none => Except.error (errSetterNotFound ++ s.name)

/-- A variable descriptor as built by NewVariable / NewStringVariable in
var.go.  `isIndexer` records whether the Go value is an `*IndexedVariable`
(i.e. was created with a non-nil setter), which is what the dynamic
`variable.(Indexer)` checks in api.go and factory.go test; `index` is the
slot index stamped by Register / Override (meaningful only when
`isIndexer` is true). -/
structure Variable where
  getter : GetterImpl
  setter : SetterImpl
  name : String
  data : GoValue
  flags : Nat
  isIndexer : Bool
  index : Nat

/-- NewVariable from var.go. -/
def NewVariable (name : String) (data : GoValue) (getter : Option GetterFunc)
    (setter : Option SetterFunc) (flags : Nat) : Variable :=
  { getter := { name := name, getter := getter }
  , setter := { name := name, setter := setter }
  , name := name, data := data, flags := flags
  , isIndexer := setter.isSome, index := 0 }

/-- DefaultSetter from var.go: store the value verbatim and mark the cell valid. -/
def DefaultSetter : SetterFunc :=
  fun _ _ value => Except.ok { data := value, Valid := true }

/-- NewStringVariable from var.go. -/
def NewStringVariable (name : String) (data : GoValue) (getter : Option StringGetterFunc)
    (setter : Option StringSetterFunc) (flags : Nat) : Variable :=
  { getter := { name := name, strGetter := getter }
  , setter := { name := name, strSetter := setter }
  , name := name, data := data, flags := flags
  , isIndexer := setter.isSome, index := 0 }

/-- DefaultStringSetter from var.go. -/
def DefaultStringSetter : StringSetterFunc :=
  fun amb vv v => DefaultSetter amb vv (GoValue.vstr v)

/-- Go map lookup over an association list (first match wins; Register
and RegisterPrefix never insert a duplicate key). -/
def lookup : List (String × α) → String → Option α
  | [], _ => none
  | p :: rest, k => if p.1 == k then some p.2 else lookup rest k

/-- Go map in-place overwrite of an existing key. -/
def updateAssoc (l : List (String × α)) (k : String) (v : α) : List (String × α) :=
  l.map (fun p => if p.1 == k then (k, v) else p)

/-- The process-wide mutable globals of factory.go and the
protocol-resource adapter: `variables`, `prefixVariables`,
`indexedVariables`, `protocolVar` and the pluggable `GetProtocol` hook. -/
structure Globals where
  varMap : List (String × Variable)
  prefixVariables : List (String × Variable)
  indexedVariables : List Variable
  protocolVar : List (String × String)
  getProtocol : Option (Option Ambient → Except String String)

/-- The empty registry (state after ResetVariableForTest). -/
def emptyGlobals : Globals :=
  { varMap := [], prefixVariables := [], indexedVariables := []
  , protocolVar := [], getProtocol := none }

/-- Register from factory.go: on a name collision it logs, keeps the old
entry and returns the duplicate-registration error; otherwise it inserts
the variable and, if the variable is an Indexer, stamps its index with the
current length of the index table and appends it there (in Go SetIndex
mutates the object shared by the map and the table, so both hold the
stamped descriptor). -/
def Register (g : Globals) (v : Variable) : Globals × Except String Unit :=
  match lookup g.varMap v.name with
  | some _ => (g, Except.error (errVariableDuplicated ++ v.name))
  | none =>
    if v.isIndexer then
      let v2 := { v with index := g.indexedVariables.length }
      ({ g with varMap := (v.name, v2) :: g.varMap
              , indexedVariables := g.indexedVariables ++ [v2] }, Except.ok ())
    else
      ({ g with varMap := (v.name, v) :: g.varMap }, Except.ok ())

/-- Override from factory.go: fails if the name is unregistered; else
replaces the map entry, and an Indexer either reuses the old index (old
was an Indexer) or is appended with a fresh index. -/
def Override (g : Globals) (v : Variable) : Globals × Except String Unit :=
  match lookup g.varMap v.name with
  | none => (g, Except.error (errVariableNotRegister ++ v.name))
  | some oldVar =>
    if v.isIndexer then
      if oldVar.isIndexer then
        let v2 := { v with index := oldVar.index }
        ({ g with varMap := updateAssoc g.varMap v.name v2
                , indexedVariables := g.indexedVariables.set oldVar.index v2 }, Except.ok ())
      else
        let v2 := { v with index := g.indexedVariables.length }
        ({ g with varMap := updateAssoc g.varMap v.name v2
                , indexedVariables := g.indexedVariables ++ [v2] }, Except.ok ())
    else
      ({ g with varMap := updateAssoc g.varMap v.name v }, Except.ok ())

/-- RegisterPrefix from factory.go: duplicate prefixes are refused with an
error (and the old entry kept); no index assignment ever happens. -/
def RegisterPrefixVariable (g : Globals) (pre : String) (v : Variable) :
    Globals × Except String Unit :=
  match lookup g.prefixVariables pre with
  | some _ => (g, Except.error (errPrefixDuplicated ++ pre))
  | none => ({ g with prefixVariables := (pre, v) :: g.prefixVariables }, Except.ok ())

/-- OverridePrefix from factory.go. -/
def OverridePrefixVariable (g : Globals) (pre : String) (v : Variable) :
    Globals × Except String Unit :=
  match lookup g.prefixVariables pre with
  | none => (g, Except.error (errPrefixNotRegister ++ pre))
  | some _ => ({ g with prefixVariables := updateAssoc g.prefixVariables pre v }, Except.ok ())

/-- strings.HasPrefix: byte-prefix test, here on the character lists (a
reducible equivalent of String.startsWith). -/
def goHasPrefix (s pre : String) : Bool := pre.data.isPrefixOf s.data

/-- Check from factory.go: exact map first, then the first matching prefix
(map iteration modelled by list order), else undefined-variable. -/
def Check (g : Globals) (name : String) : Except String Variable :=
  match lookup g.varMap name with
  | some v => Except.ok v
  | none =>
    match g.prefixVariables.find? (fun p => goHasPrefix name p.1) with
    | some p => Except.ok p.2
    | none => Except.error (errUndefinedVariable ++ name)

/-- Outcome of a Go call: a value, a returned error, or a runtime panic
(nil dereference or index out of range). -/
inductive GoRes (α : Type) where
  | ok (a : α)
  | err (msg : String)
  | panic
deriving DecidableEq, Repr

/-- Modelled from the spec: the heap of per-context slot arrays.  The
internal context carrier (internal/context, absent from the sources; only
its test file is present) stores one reserved slot, the indexed-value
array, and hands out slice references to it; a heap of arrays addressed
by allocation order makes that reference sharing explicit. -/
abbrev Heap := List (List IndexedValue)

/-- Modelled from the spec: the scoped context carrier.  `ambient` is the
ordinary key-value payload reachable through the Go context chain;
`vars` is the reference (heap pointer) held under the reserved
KeyVariables slot, or `none` when the context never passed through
NewVariableContext.  A Go nil context is `Option Ctx`s `none` at the
call sites below. -/
structure Ctx where
  ambient : Ambient
  vars : Option Nat
deriving DecidableEq, Repr

/-- Go's builtin `copy(dst, src)` on slices: overwrite the first
`min |dst| |src|` cells of `dst` with those of `src`. -/
def goCopy (dst src : List IndexedValue) : List IndexedValue :=
  src.take dst.length ++ dst.drop src.length

/-- NewVariableContext from factory.go: allocate a fresh slot array of the
current index-table length, copy the parent's array into it when the
parent carries one, and hand the child a reference to the fresh array
(`mosnctx.WithValue(mosnctx.Clone(ctx), KeyVariables, values)`), keeping
the ambient payload.  The carrier operations Get/Clone/WithValue are
modelled from the spec (see `Heap`). -/
def NewVariableContext (g : Globals) (h : Heap) (ctx : Ctx) : Heap × Ctx :=
  let fresh0 : List IndexedValue :=
    List.replicate g.indexedVariables.length { data := GoValue.vnil, Valid := false }
  let freshArr :=
    match ctx.vars with
    | some p =>
      match h[p]? with
      | some ivalues => goCopy fresh0 ivalues
      | none => fresh0
    | none => fresh0
  (h ++ [freshArr], { ambient := ctx.ambient, vars := some h.length })

/-- getIndexedValue from api.go: look up the variable of this index in the
global index table, run its getter, and write the outcome back through
the cell pointer (`Valid := false` on error; the fresh data and
`Valid := true` on success).  The third component counts getter-impl
invocations (0 or 1), the instrumentation the cache claims are about. -/
def getIndexedValue (g : Globals) (h : Heap) (ctx : Ctx) (p : Nat)
    (values : List IndexedValue) (cell : IndexedValue) (index : Nat) :
    GoRes GoValue × Heap × Nat :=
  match g.indexedVariables[index]? with
  | none => (GoRes.panic, h, 0)
  | some v =>
    match GetterImpl.get v.getter (some ctx.ambient) (some cell) v.data with
    | Except.error e =>
      (GoRes.err e, h.set p (values.set index { cell with Valid := false }), 1)
    | Except.ok vdata =>
      (GoRes.ok vdata, h.set p (values.set index { data := vdata, Valid := true }), 1)

/-- getFlushedValue from api.go: read the slot array out of the context;
with no array, fail with errNoVariablesInContext; a valid cell is a cache
hit returning the cached data with no getter call; an invalid cell goes
through getIndexedValue.  `values[index]` out of range is a Go panic.
A dangling heap pointer cannot arise in Go (the reference is held by the
context); it is mapped to panic. -/
def getFlushedValue (g : Globals) (h : Heap) (ctx : Ctx) (index : Nat) :
    GoRes GoValue × Heap × Nat :=
  match ctx.vars with
  | none => (GoRes.err errNoVariablesInContext, h, 0)
  | some p =>
    match h[p]? with
    | none => (GoRes.panic, h, 0)
    | some values =>
      match values[index]? with
      | none => (GoRes.panic, h, 0)
      | some cell =>
        if cell.Valid then (GoRes.ok cell.data, h, 0)
        else getIndexedValue g h ctx p values cell index

/-- setFlushedValue from api.go: resolve the slot array and the variable
of this index, write `Valid := false` through the cell pointer before
invoking the setter (so a failing setter leaves the slot invalid), then
let the setter store the new cell.  Constructor-built variables always
carry a setterImpl, so the Go `setter == nil` branch is unreachable for
them and not modelled. -/
def setFlushedValue (g : Globals) (h : Heap) (ctx : Ctx) (index : Nat)
    (value : GoValue) : GoRes Unit × Heap :=
  match ctx.vars with
  | none => (GoRes.err errNoVariablesInContext, h)
  | some p =>
    match h[p]? with
    | none => (GoRes.panic, h)
    | some values =>
      match g.indexedVariables[index]? with
      | none => (GoRes.panic, h)
      | some v =>
        match values[index]? with
        | none => (GoRes.panic, h)
        | some cell =>
          let cell1 := { cell with Valid := false }
          match SetterImpl.set v.setter (some ctx.ambient) cell1 value with
          | Except.error e => (GoRes.err e, h.set p (values.set index cell1))
          | Except.ok cell2 => (GoRes.ok (), h.set p (values.set index cell2))

/-- getByVariable from api.go: an Indexer goes through the slot cache
(getFlushedValue dereferences the context first, so a nil context is a
panic); otherwise the getter is invoked directly with a nil cell. -/
def getByVariable (g : Globals) (h : Heap) (ctx : Option Ctx) (v : Variable) :
    GoRes GoValue × Heap × Nat :=
  if v.isIndexer then
    match ctx with
    | none => (GoRes.panic, h, 0)
    | some c => getFlushedValue g h c v.index
  else
    match GetterImpl.get v.getter (Option.map Ctx.ambient ctx) none v.data with
    | Except.ok w => (GoRes.ok w, h, 1)
    | Except.error e => (GoRes.err e, h, 1)

/-- The `%s` rendering fmt.Sprintf applies to the optional suffix argument
of GetProtocolResource. -/
def goFormatS : GoValue → String
  | GoValue.vstr s => s
  | GoValue.vint n => "%!s(int=" ++ toString n ++ ")"
  | GoValue.vnil => "%!s(<nil>)"

/-- convert from the protocol-resource adapter: protocol and resource name
concatenated. -/
def convert (p : String) (name : String) : String := p ++ name

/-- The non-recursive head of GetProtocolResource: require the pluggable
GetProtocol hook, resolve the protocol, look up the backing variable name
under protocol+resource, and append the rendered suffix when exactly one
trailing argument was given.  Returns the composed backing variable name
to be fetched, or the early error. -/
def protocolResourceTarget (g : Globals) (amb : Option Ambient) (name : String)
    (data : List GoValue) : Except String String :=
  match g.getProtocol with
  | none => Except.error errNoGetProtocolMsg
  | some gp =>
    match gp amb with
    | Except.error e => Except.error e
    | Except.ok p =>
      match lookup g.protocolVar (convert p name) with
      | none => Except.error (errUnregisterProtocolResource ++ p)
      | some v0 =>
        Except.ok (if data.length = 1 then v0 ++ goFormatS (data.headD GoValue.vnil) else v0)

/-- The string coercion GetString applies on top of a generic Get result. -/
def stringifyGet : GoRes GoValue × Heap × Nat → GoRes String × Heap × Nat
  | (GoRes.ok w, h2, n) =>
    (match w with
     | GoValue.vstr s => GoRes.ok s
     | _ => GoRes.err errVariableNotString, h2, n)
  | (GoRes.err e, h2, n) => (GoRes.err e, h2, n)
  | (GoRes.panic, h2, n) => (GoRes.panic, h2, n)

/-- getByName from api.go: exact-match map first; else the first matching
prefix entry's getter invoked directly with the full requested name as
data (no slot cache touched, heap unchanged); else the protocol-resource
adapter (whose GetString on the composed backing name re-enters this very
function — `fuel` bounds that recursion, and its exhaustion, which in Go
is the stack overflowing on a cyclic resource table, is mapped to panic);
on any adapter error, errUndefinedVariable. -/
def getByName (g : Globals) : Nat → Heap → Option Ctx → String →
    GoRes GoValue × Heap × Nat
  | fuel, h, ctx, name =>
    match lookup g.varMap name with
    | some v => getByVariable g h ctx v
    | none =>
      match g.prefixVariables.find? (fun p => goHasPrefix name p.1) with
      | some pv =>
        (match GetterImpl.get pv.2.getter (Option.map Ctx.ambient ctx) none (GoValue.vstr name) with
         | Except.ok w => GoRes.ok w
         | Except.error e => GoRes.err e, h, 1)
      | none =>
        match protocolResourceTarget g (Option.map Ctx.ambient ctx) name [] with
        | Except.error _ => (GoRes.err (errUndefinedVariable ++ name), h, 0)
        | Except.ok vn =>
          match fuel with
          | 0 => (GoRes.panic, h, 0)
          | Nat.succ f2 =>
            match stringifyGet (getByName g f2 h ctx vn) with
            | (GoRes.ok s, h2, n) => (GoRes.ok (GoValue.vstr s), h2, n)
            | (GoRes.panic, h2, n) => (GoRes.panic, h2, n)
            | (GoRes.err _, h2, n) => (GoRes.err (errUndefinedVariable ++ name), h2, n)

/-- GetProtocolResource from the protocol-resource adapter: compose the
backing variable name (protocolResourceTarget) and delegate to the
string-typed Get of it, which for a name goes straight into getByName. -/
def GetProtocolResource (g : Globals) (fuel : Nat) (h : Heap) (ctx : Option Ctx)
    (name : String) (data : List GoValue) : GoRes String × Heap × Nat :=
  match protocolResourceTarget g (Option.map Ctx.ambient ctx) name data with
  | Except.error e => (GoRes.err e, h, 0)
  | Except.ok vn =>
    match fuel with
    | 0 => (GoRes.panic, h, 0)
    | Nat.succ f2 => stringifyGet (getByName g f2 h ctx vn)

/-- The dynamic argument of the public Get/Set: a name string, a Variable
reference, or a value of any other type. -/
inductive VarRef where
  | byName (s : String)
  | byVar (v : Variable)
  | other

/-- Get from api.go: dispatch on the dynamic type of the reference;
anything that is neither a string nor a Variable is the fixed
invalidVariableIndex error. -/
def Get (g : Globals) (fuel : Nat) (h : Heap) (ctx : Option Ctx) (i : VarRef) :
    GoRes GoValue × Heap × Nat :=
  match i with
  | VarRef.byName s => getByName g fuel h ctx s
  | VarRef.byVar v => getByVariable g h ctx v
  | VarRef.other => (GoRes.err invalidVariableIndexMsg, h, 0)

/-- GetString from api.go: generic Get, then a single dynamic string
check. -/
def GetString (g : Globals) (fuel : Nat) (h : Heap) (ctx : Option Ctx)
    (i : VarRef) : GoRes String × Heap × Nat :=
  stringifyGet (Get g fuel h ctx i)

/-- setByVariable from api.go: only an Indexer is settable, through
setFlushedValue (which dereferences the context: nil context panics);
otherwise the indexed-only error. -/
def setByVariable (g : Globals) (h : Heap) (ctx : Option Ctx) (v : Variable)
    (value : GoValue) : GoRes Unit × Heap :=
  if v.isIndexer then
    match ctx with
    | none => (GoRes.panic, h)
    | some c => setFlushedValue g h c v.index value
  else (GoRes.err (errSupportIndexedOnly ++ ": set variable value"), h)

/-- setByName from api.go: explicit nil-context check, then exact-map
lookup; prefix and unregistered names get the indexed-only error. -/
def setByName (g : Globals) (h : Heap) (ctx : Option Ctx) (name : String)
    (value : GoValue) : GoRes Unit × Heap :=
  match ctx with
  | none => (GoRes.err errInvalidContext, h)
  | some _ =>
    match lookup g.varMap name with
    | some v => setByVariable g h ctx v value
    | none => (GoRes.err (errSupportIndexedOnly ++ ": set variable value"), h)

/-- Set from api.go. -/
def Set (g : Globals) (h : Heap) (ctx : Option Ctx) (i : VarRef)
    (value : GoValue) : GoRes Unit × Heap :=
  match i with
  | VarRef.byName s => setByName g h ctx s value
  | VarRef.byVar v => setByVariable g h ctx v value
  | VarRef.other => (GoRes.err invalidVariableIndexMsg, h)

/-- SetString from api.go: explicit nil-context check, then generic Set
with the string boxed. -/
def SetString (g : Globals) (h : Heap) (ctx : Option Ctx) (i : VarRef)
    (value : String) : GoRes Unit × Heap :=
  match ctx with
  | none => (GoRes.err errInvalidContext, h)
  | some _ => Set g h ctx i (GoValue.vstr value)

/-- RegisterProtocolResource from the protocol-resource adapter: refuse an
existing protocol+resource key, else store the composed backing name
`protocol ++ "_" ++ varname`. -/
def RegisterProtocolResource (g : Globals) (protocol : String) (resource : String)
    (varname : String) : Globals × Except String Unit :=
  let pr := convert protocol resource
  match lookup g.protocolVar pr with
  | some _ => (g, Except.error ("protocol resource already exists, name: " ++ pr))
  | none =>
    ({ g with protocolVar := (pr, protocol ++ "_" ++ varname) :: g.protocolVar }, Except.ok ())

/-! Helper lemmas about the engine, shared by several claims. -/

/-- Forking from a context with no slot array yields the all-invalid fresh
array appended to the heap. -/
theorem NewVariableContext_none (g : Globals) (h : Heap) (amb : Ambient) :
    NewVariableContext g h { ambient := amb, vars := none } =
      (h ++ [List.replicate g.indexedVariables.length { data := GoValue.vnil, Valid := false }],
       { ambient := amb, vars := some h.length }) := rfl

/-- Dereferencing the freshly appended array. -/
theorem heapAt_append (h : Heap) (a : List IndexedValue) : (h ++ [a])[h.length]? = some a := by
  simp

/-- Appending to the heap keeps old pointers intact. -/
theorem heapAt_append_lt (h : Heap) (a : List IndexedValue) (p : Nat) (hp : p < h.length) :
    (h ++ [a])[p]? = h[p]? := List.getElem?_append_left hp

/-- Writing one array leaves every other pointer intact. -/
theorem heapAt_set_ne (h : Heap) (a : List IndexedValue) (p q : Nat) (hpq : q ≠ p) :
    (h.set q a)[p]? = h[p]? := by
  simp [List.getElem?_set_ne hpq]

/-- Reading back an array just written. -/
theorem heapAt_set_self (h : Heap) (a : List IndexedValue) (p : Nat) (hp : p < h.length) :
    (h.set p a)[p]? = some a := by
  simp [List.getElem?_set_self, hp]

/-- getFlushedValue once the context, its array and the cell resolve. -/
theorem getFlushedValue_resolve (g : Globals) (h : Heap) (ctx : Ctx) (p : Nat)
    (values : List IndexedValue) (cell : IndexedValue) (i : Nat)
    (hc : ctx.vars = some p) (hh : h[p]? = some values) (hv : values[i]? = some cell) :
    getFlushedValue g h ctx i =
      if cell.Valid then (GoRes.ok cell.data, h, 0)
      else getIndexedValue g h ctx p values cell i := by
  simp [getFlushedValue, hc, hh, hv]

/-- getIndexedValue once the variable of the index resolves. -/
theorem getIndexedValue_resolve (g : Globals) (h : Heap) (ctx : Ctx) (p : Nat)
    (values : List IndexedValue) (cell : IndexedValue) (i : Nat) (v : Variable)
    (hvg : g.indexedVariables[i]? = some v) :
    getIndexedValue g h ctx p values cell i =
      match GetterImpl.get v.getter (some ctx.ambient) (some cell) v.data with
      | Except.error e => (GoRes.err e, h.set p (values.set i { cell with Valid := false }), 1)
      | Except.ok w => (GoRes.ok w, h.set p (values.set i { data := w, Valid := true }), 1) := by
  simp [getIndexedValue, hvg]

/-- setFlushedValue once the context, its array, the variable and the cell
resolve: the cell is invalidated before the setter runs. -/
theorem setFlushedValue_resolve (g : Globals) (h : Heap) (ctx : Ctx) (p : Nat)
    (values : List IndexedValue) (cell : IndexedValue) (i : Nat) (v : Variable) (x : GoValue)
    (hc : ctx.vars = some p) (hh : h[p]? = some values)
    (hvg : g.indexedVariables[i]? = some v) (hv : values[i]? = some cell) :
    setFlushedValue g h ctx i x =
      match SetterImpl.set v.setter (some ctx.ambient) { cell with Valid := false } x with
      | Except.error e => (GoRes.err e, h.set p (values.set i { cell with Valid := false }))
      | Except.ok cell2 => (GoRes.ok (), h.set p (values.set i cell2)) := by
  simp [setFlushedValue, hc, hh, hvg, hv]

/-- Get on a direct Indexer reference is the slot-cache path. -/
theorem Get_byVar_indexed (g : Globals) (fuel : Nat) (h : Heap) (c : Ctx) (v : Variable)
    (hidx : v.isIndexer = true) :
    Get g fuel h (some c) (VarRef.byVar v) = getFlushedValue g h c v.index := by
  simp [Get, getByVariable, hidx]

/-- Set on a direct Indexer reference is the slot-cache path. -/
theorem Set_byVar_indexed (g : Globals) (h : Heap) (c : Ctx) (v : Variable) (x : GoValue)
    (hidx : v.isIndexer = true) :
    Set g h (some c) (VarRef.byVar v) x = setFlushedValue g h c v.index x := by
  simp [Set, setByVariable, hidx]

/-- An index present in the table is within the fresh array's bounds. -/
theorem index_lt_of_table (g : Globals) (i : Nat) (v : Variable)
    (hvg : g.indexedVariables[i]? = some v) : i < g.indexedVariables.length := by
  by_contra hcontra
  rw [List.getElem?_eq_none (by omega)] at hvg
  exact Option.noConfusion hvg

/-- One fully resolved cache read: cache hit on a valid cell, otherwise
one getter invocation whose outcome is written back. -/
theorem Get_resolved (g : Globals) (fuel : Nat) (h : Heap) (c : Ctx) (v : Variable)
    (p : Nat) (values : List IndexedValue) (cell : IndexedValue)
    (hidx : v.isIndexer = true) (hc : c.vars = some p) (hh : h[p]? = some values)
    (hcell : values[v.index]? = some cell)
    (hvg : g.indexedVariables[v.index]? = some v) :
    Get g fuel h (some c) (VarRef.byVar v) =
      if cell.Valid then (GoRes.ok cell.data, h, 0)
      else
        match GetterImpl.get v.getter (some c.ambient) (some cell) v.data with
        | Except.error e =>
          (GoRes.err e, h.set p (values.set v.index { cell with Valid := false }), 1)
        | Except.ok w =>
          (GoRes.ok w, h.set p (values.set v.index { data := w, Valid := true }), 1) := by
  rw [Get_byVar_indexed g fuel h c v hidx,
    getFlushedValue_resolve g h c p values cell v.index hc hh hcell,
    getIndexedValue_resolve g h c p values cell v.index v hvg]

/-- One fully resolved cache write: the cell is invalidated, then the
setter decides the outcome. -/
theorem Set_resolved (g : Globals) (h : Heap) (c : Ctx) (v : Variable)
    (p : Nat) (values : List IndexedValue) (cell : IndexedValue) (x : GoValue)
    (hidx : v.isIndexer = true) (hc : c.vars = some p) (hh : h[p]? = some values)
    (hcell : values[v.index]? = some cell)
    (hvg : g.indexedVariables[v.index]? = some v) :
    Set g h (some c) (VarRef.byVar v) x =
      match SetterImpl.set v.setter (some c.ambient) { cell with Valid := false } x with
      | Except.error e => (GoRes.err e, h.set p (values.set v.index { cell with Valid := false }))
      | Except.ok cell2 => (GoRes.ok (), h.set p (values.set v.index cell2)) := by
  rw [Set_byVar_indexed g h c v x hidx,
    setFlushedValue_resolve g h c p values cell v.index v x hc hh hvg hcell]

/-- A cache hit: Get on a valid cell returns the cached data, touches
nothing and invokes no getter, independent of what the index table holds. -/
theorem Get_resolved_hit (g : Globals) (fuel : Nat) (h : Heap) (c : Ctx) (v : Variable)
    (p : Nat) (values : List IndexedValue) (cell : IndexedValue)
    (hidx : v.isIndexer = true) (hc : c.vars = some p) (hh : h[p]? = some values)
    (hcell : values[v.index]? = some cell) (hvalid : cell.Valid = true) :
    Get g fuel h (some c) (VarRef.byVar v) = (GoRes.ok cell.data, h, 0) := by
  rw [Get_byVar_indexed g fuel h c v hidx,
    getFlushedValue_resolve g h c p values cell v.index hc hh hcell]
  simp [hvalid]

/-- Set through a reference variable `w` resolves the setter from the
index table entry `tv` of `w.index` (api.go reads
`indexedVariables[index].Setter()`), which matters after Override. -/
theorem Set_resolved_table (g : Globals) (h : Heap) (c : Ctx) (w tv : Variable)
    (p : Nat) (values : List IndexedValue) (cell : IndexedValue) (x : GoValue)
    (hidx : w.isIndexer = true) (hc : c.vars = some p) (hh : h[p]? = some values)
    (hcell : values[w.index]? = some cell)
    (hvg : g.indexedVariables[w.index]? = some tv) :
    Set g h (some c) (VarRef.byVar w) x =
      match SetterImpl.set tv.setter (some c.ambient) { cell with Valid := false } x with
      | Except.error e => (GoRes.err e, h.set p (values.set w.index { cell with Valid := false }))
      | Except.ok cell2 => (GoRes.ok (), h.set p (values.set w.index cell2)) := by
  rw [Set_byVar_indexed g h c w x hidx,
    setFlushedValue_resolve g h c p values cell w.index tv x hc hh hvg hcell]

/-- Overwriting an existing key of a Go map: lookup then finds the new
value. -/
theorem lookup_updateAssoc (l : List (String × α)) (k : String) (v w : α)
    (hl : lookup l k = some w) : lookup (updateAssoc l k v) k = some v := by
  induction l with
  | nil => simp [lookup] at hl
  | cons a t ih =>
    by_cases hak : (a.1 == k) = true
    · simp [lookup, updateAssoc, hak]
    · have hakf : (a.1 == k) = false := by simpa using hak
      simp only [lookup, hakf, if_false, Bool.false_eq_true] at hl
      simp only [updateAssoc, List.map_cons, hakf, lookup, if_false, Bool.false_eq_true]
      simp only [updateAssoc] at ih
      exact ih hl

/-- Forking from a context whose slot array resolves: the parent array is
copied element-wise into the fresh array appended to the heap, and the
child points at the fresh array with the same ambient payload. -/
theorem NewVariableContext_some (g : Globals) (h : Heap) (ctx : Ctx) (p : Nat)
    (arr : List IndexedValue) (hc : ctx.vars = some p) (hh : h[p]? = some arr) :
    NewVariableContext g h ctx =
      (h ++ [goCopy (List.replicate g.indexedVariables.length
        { data := GoValue.vnil, Valid := false }) arr],
       { ambient := ctx.ambient, vars := some h.length }) := by
  simp [NewVariableContext, hc, hh]

/-- Go copy preserves every cell the source covers. -/
theorem goCopy_getElem (dst src : List IndexedValue) (i : Nat)
    (hi1 : i < dst.length) (hi2 : i < src.length) :
    (goCopy dst src)[i]? = src[i]? := by
  unfold goCopy
  rw [List.getElem?_append_left (by simp [List.length_take]; omega)]
  simp [List.getElem?_take, hi1]

/-- The result and getter-invocation count of getIndexedValue depend only
on the registry, the ambient payload, the cell and the variable data —
not on the heap or the write-back position. -/
theorem getIndexedValue_fst (g : Globals) (h1 h2 : Heap) (c1 c2 : Ctx)
    (p1 p2 : Nat) (vals1 vals2 : List IndexedValue) (cell : IndexedValue) (i : Nat)
    (hamb : c1.ambient = c2.ambient) :
    (getIndexedValue g h1 c1 p1 vals1 cell i).1 =
      (getIndexedValue g h2 c2 p2 vals2 cell i).1 ∧
    (getIndexedValue g h1 c1 p1 vals1 cell i).2.2 =
      (getIndexedValue g h2 c2 p2 vals2 cell i).2.2 := by
  cases hvt : g.indexedVariables[i]? with
  | none => simp [getIndexedValue, hvt]
  | some v =>
    rw [show (getIndexedValue g h1 c1 p1 vals1 cell i) =
      (match g.indexedVariables[i]? with
       | none => (GoRes.panic, h1, 0)
       | some v =>
         match GetterImpl.get v.getter (some c1.ambient) (some cell) v.data with
         | Except.error e =>
           (GoRes.err e, h1.set p1 (vals1.set i { cell with Valid := false }), 1)
         | Except.ok vdata =>
           (GoRes.ok vdata, h1.set p1 (vals1.set i { data := vdata, Valid := true }), 1))
      from rfl]
    rw [show (getIndexedValue g h2 c2 p2 vals2 cell i) =
      (match g.indexedVariables[i]? with
       | none => (GoRes.panic, h2, 0)
       | some v =>
         match GetterImpl.get v.getter (some c2.ambient) (some cell) v.data with
         | Except.error e =>
           (GoRes.err e, h2.set p2 (vals2.set i { cell with Valid := false }), 1)
         | Except.ok vdata =>
           (GoRes.ok vdata, h2.set p2 (vals2.set i { data := vdata, Valid := true }), 1))
      from rfl]
    rw [hvt, hamb]
    cases hg : GetterImpl.get v.getter (some c2.ambient) (some cell) v.data with
    | error e => simp [hg]
    | ok w => simp [hg]

/-- The result and count of a cache read depend on the heap only through
the context's own array. -/
theorem getFlushedValue_congr (g : Globals) (h1 h2 : Heap) (c1 c2 : Ctx)
    (p1 p2 : Nat) (i : Nat)
    (hc1 : c1.vars = some p1) (hc2 : c2.vars = some p2)
    (hamb : c1.ambient = c2.ambient) (hh : h1[p1]? = h2[p2]?) :
    (getFlushedValue g h1 c1 i).1 = (getFlushedValue g h2 c2 i).1 ∧
    (getFlushedValue g h1 c1 i).2.2 = (getFlushedValue g h2 c2 i).2.2 := by
  simp only [getFlushedValue, hc1, hc2, hh]
  cases hv : h2[p2]? with
  | none => simp
  | some values =>
    cases hcell : values[i]? with
    | none => simp [hcell]
    | some cell =>
      cases hval : cell.Valid with
      | true => simp [hcell, hval]
      | false =>
        simp only [hcell, hval, Bool.false_eq_true, if_false]
        exact getIndexedValue_fst g h1 h2 c1 c2 p1 p2 values values cell i hamb

/-- A Set through an Indexer writes only the context's own array: every
other heap pointer reads unchanged. -/
theorem Set_heap_preserves (g : Globals) (h : Heap) (c : Ctx) (v : Variable)
    (x : GoValue) (q r : Nat) (hc : c.vars = some q) (hqr : r ≠ q) :
    (Set g h (some c) (VarRef.byVar v) x).2[r]? = h[r]? := by
  cases hidx : v.isIndexer with
  | false => simp [Set, setByVariable, hidx]
  | true =>
    rw [Set_byVar_indexed g h c v x hidx]
    simp only [setFlushedValue, hc]
    cases hv : h[q]? with
    | none => simp
    | some values =>
      cases hvt : g.indexedVariables[v.index]? with
      | none => simp [hvt]
      | some tv =>
        cases hcell : values[v.index]? with
        | none => simp [hvt, hcell]
        | some cell =>
          cases hs : SetterImpl.set tv.setter (some c.ambient)
              { cell with Valid := false } x with
          | error e => simp [hvt, hcell, hs, List.getElem?_set_ne (Ne.symm hqr)]
          | ok cell2 => simp [hvt, hcell, hs, List.getElem?_set_ne (Ne.symm hqr)]

/-! Concrete fixtures used by witnesses and counterexamples. -/

/-- Witness fixture: the setter-only connection_id variable of the tests. -/
def xNameConn : String := "connection_id"

/-- Witness fixture: a second setter-only variable name. -/
def xNameStream : String := "stream_id"

/-- Witness fixture: connection_id descriptor as built by NewVariable. -/
def xVConn : Variable := NewVariable xNameConn GoValue.vnil none (some DefaultSetter) 0

/-- Witness fixture: stream_id descriptor. -/
def xVStream : Variable := NewVariable xNameStream GoValue.vnil none (some DefaultSetter) 0

/-- Witness fixture: registry with connection_id and stream_id registered. -/
def xG2 : Globals := (Register (Register emptyGlobals xVConn).1 xVStream).1

/-- Witness fixture: the registered connection_id descriptor (index stamped). -/
def xVConnR : Variable := (lookup xG2.varMap xNameConn).getD xVConn

/-- C10: a Get or Set argument that is neither a string nor a Variable is
answered with the fixed error "get variable support name index or
variable directly", the heap (hence every context's slot array) is
unchanged, and the registry is not even written (Get/Set read `g` only). -/
theorem C10_invalid_ref_fixed_error (g : Globals) (fuel : Nat) (h : Heap)
    (ctx : Option Ctx) (value : GoValue) :
    Get g fuel h ctx VarRef.other = (GoRes.err invalidVariableIndexMsg, h, 0) ∧
    Set g h ctx VarRef.other value = (GoRes.err invalidVariableIndexMsg, h) ∧
    invalidVariableIndexMsg = "get variable support name index or variable directly" :=
  ⟨rfl, rfl, rfl⟩

/-- C3 counterexample: registering connection_id twice keeps the old entry
but returns the duplicate-registration error, not success — refuting
"returns success with no error". -/
theorem C3_counterexample_duplicate_register_errors :
    (Register (Register emptyGlobals xVConn).1 xVConn).2 =
      Except.error (errVariableDuplicated ++ xNameConn) ∧
    (Register (Register emptyGlobals xVConn).1 xVConn).2 ≠ Except.ok () := by
  refine ⟨rfl, ?_⟩
  intro hcontra
  exact Except.noConfusion ((rfl : (Register (Register emptyGlobals xVConn).1 xVConn).2 = Except.error (errVariableDuplicated ++ xNameConn)).symm.trans hcontra)

/-- C3 amended: a second Register under an already-present name keeps the
registry entirely unchanged (first registrant wins, after logging) and
returns the duplicate-registration error; a RegisterPrefix on an
already-registered prefix likewise keeps the old entry and returns the
duplicate-prefix error (without logging). -/
theorem C3_amended_duplicate_register_keeps_old_and_errors
    (g : Globals) (v w old oldp : Variable) (pre : String)
    (hdup : lookup g.varMap v.name = some old)
    (hdupp : lookup g.prefixVariables pre = some oldp) :
    Register g v = (g, Except.error (errVariableDuplicated ++ v.name)) ∧
    RegisterPrefixVariable g pre w =
      (g, Except.error (errPrefixDuplicated ++ pre)) := by
  constructor
  · simp [Register, hdup]
  · simp [RegisterPrefixVariable, hdupp]

/-- Witness fixture: xG2 with connection_id also registered as a prefix. -/
def xG2p : Globals := (RegisterPrefixVariable xG2 xNameConn xVConn).1

/-- C3 witness: the amended statement applied to the duplicate
registration of connection_id over itself as a name and as a prefix. -/
theorem C3_amended_witness :
    Register xG2p xVConn =
      (xG2p, Except.error (errVariableDuplicated ++ xNameConn)) ∧
    RegisterPrefixVariable xG2p xNameConn xVStream =
      (xG2p, Except.error (errPrefixDuplicated ++ xNameConn)) :=
  C3_amended_duplicate_register_keeps_old_and_errors
    xG2p xVConn xVStream xVConnR xVConn xNameConn (by rfl) (by rfl)

/-- C4 counterexample: Get with a nil context on the registered indexed
name connection_id dereferences the nil context (panic); it does not
return the InvalidContext error — refuting both "returns the
InvalidContext error" and "the core never panics on a nil context". -/
theorem C4_counterexample_get_nil_panics :
    (Get xG2 9 [] none (VarRef.byName xNameConn)).1 = GoRes.panic ∧
    (Get xG2 9 [] none (VarRef.byName xNameConn)).1 ≠
      GoRes.err errInvalidContext := by
  refine ⟨rfl, ?_⟩
  intro hcontra
  exact GoRes.noConfusion ((rfl : (Get xG2 9 [] none (VarRef.byName xNameConn)).1 = GoRes.panic).symm.trans hcontra)

/-- C4 amended: only the set-by-name paths check for a nil context:
SetString and Set with a name return InvalidContext on nil; Get performs
no nil check — on a registered indexed name it dereferences the nil
context (panic), and on a name registered nowhere it returns the
UndefinedVariable error. -/
theorem C4_amended_nil_context_checks
    (g : Globals) (h : Heap) (i : VarRef) (value : GoValue) (s : String)
    (fuel : Nat) (name oname : String) (v : Variable)
    (hv : lookup g.varMap name = some v) (hidx : v.isIndexer = true)
    (ho : lookup g.varMap oname = none)
    (hop : g.prefixVariables.find? (fun p => goHasPrefix oname p.1) = none)
    (hoproto : g.getProtocol = none) :
    SetString g h none i s = (GoRes.err errInvalidContext, h) ∧
    Set g h none (VarRef.byName name) value = (GoRes.err errInvalidContext, h) ∧
    Get g fuel h none (VarRef.byName name) = (GoRes.panic, h, 0) ∧
    (Get g fuel h none (VarRef.byName oname)).1 =
      GoRes.err (errUndefinedVariable ++ oname) := by
    refine ⟨rfl, rfl, ?_, ?_⟩
    · simp [Get, getByName, hv, getByVariable, hidx]
    · simp [Get, getByName, ho, hop, protocolResourceTarget, hoproto]

/-- C4 witness: the amended statement at the concrete registry xG2,
with connection_id as the registered indexed name and "unknown" as the
unregistered one. -/
theorem C4_amended_witness :
    SetString xG2 [] none (VarRef.byName xNameConn) "v" =
      (GoRes.err errInvalidContext, []) ∧
    Set xG2 [] none (VarRef.byName xNameConn) (GoValue.vint 1) =
      (GoRes.err errInvalidContext, []) ∧
    Get xG2 9 [] none (VarRef.byName xNameConn) = (GoRes.panic, [], 0) ∧
    (Get xG2 9 [] none (VarRef.byName "unknown")).1 =
      GoRes.err (errUndefinedVariable ++ "unknown") :=
  C4_amended_nil_context_checks xG2 [] (VarRef.byName xNameConn) (GoValue.vint 1)
    "v" 9 xNameConn "unknown" xVConnR (by rfl) (by rfl) (by rfl)
    (by rfl) (by rfl)

/-- C8: a variable with a setter but no getter function: on a context
freshly created by NewVariableContext, Get fails with the ValueNotFound
error before any Set, a second Get fails with the same error, and after a
successful Set the next Get returns the value that was set. -/
theorem C8_setter_only_read_before_write
    (g : Globals) (h : Heap) (amb : Ambient) (v : Variable) (x : GoValue) (fuel : Nat)
    (h1 h2 h3 h4 h5 : Heap) (C : Ctx) (r1 r2 r3 : GoRes GoValue) (rs : GoRes Unit)
    (n1 n2 n3 : Nat)
    (hidx : v.isIndexer = true)
    (hvg : g.indexedVariables[v.index]? = some v)
    (hnog1 : v.getter.strGetter = none) (hnog2 : v.getter.getter = none)
    (hset : ∀ c, SetterImpl.set v.setter (some amb) c x =
      Except.ok { data := x, Valid := true })
    (hN : NewVariableContext g h { ambient := amb, vars := none } = (h1, C))
    (hG1 : Get g fuel h1 (some C) (VarRef.byVar v) = (r1, h2, n1))
    (hG2 : Get g fuel h2 (some C) (VarRef.byVar v) = (r2, h3, n2))
    (hS : Set g h3 (some C) (VarRef.byVar v) x = (rs, h4))
    (hG3 : Get g fuel h4 (some C) (VarRef.byVar v) = (r3, h5, n3)) :
    r1 = GoRes.err (errValueNotFound ++ v.getter.name) ∧
    r2 = GoRes.err (errValueNotFound ++ v.getter.name) ∧
    rs = GoRes.ok () ∧
    r3 = GoRes.ok x := by
  rw [NewVariableContext_none] at hN
  injection hN with e1 e2
  subst e1
  subst e2
  have hlt : v.index < g.indexedVariables.length := index_lt_of_table g v.index v hvg
  have hgetfail : ∀ c : IndexedValue, GetterImpl.get v.getter (some amb) (some c) v.data =
      Except.error (errValueNotFound ++ v.getter.name) := by
    intro c
    simp [GetterImpl.get, hnog1, hnog2]
  rw [Get_resolved g fuel _ _ v h.length _ { data := GoValue.vnil, Valid := false }
    hidx rfl (heapAt_append h _) (by simp [List.getElem?_replicate, hlt]) hvg] at hG1
  simp [hgetfail] at hG1
  obtain ⟨hr1, hh2, _⟩ := hG1
  subst hh2
  rw [Get_resolved g fuel _ _ v h.length _ { data := GoValue.vnil, Valid := false }
    hidx rfl (heapAt_append h _) (by simp [List.getElem?_replicate, hlt]) hvg] at hG2
  simp [hgetfail] at hG2
  obtain ⟨hr2, hh3, _⟩ := hG2
  subst hh3
  rw [Set_resolved g _ _ v h.length _ { data := GoValue.vnil, Valid := false } x
    hidx rfl (heapAt_append h _) (by simp [List.getElem?_replicate, hlt]) hvg] at hS
  simp [hset] at hS
  obtain ⟨hrs, hh4⟩ := hS
  subst hh4
  rw [Get_resolved g fuel _ _ v h.length _ { data := x, Valid := true }
    hidx rfl (heapAt_append h _)
    (by simp [List.getElem?_set_self, List.length_replicate, hlt]) hvg] at hG3
  simp at hG3
  obtain ⟨hr3, _, _⟩ := hG3
  exact ⟨hr1.symm, hr2.symm, hrs.symm, hr3.symm⟩

/-- Witness fixture: the all-invalid two-slot array of a fresh xG2 context. -/
def xFreshArr : List IndexedValue :=
  [{ data := GoValue.vnil, Valid := false }, { data := GoValue.vnil, Valid := false }]

/-- Witness fixture: the array after Set(connection_id, 1). -/
def xSetArr : List IndexedValue :=
  [{ data := GoValue.vint 1, Valid := true }, { data := GoValue.vnil, Valid := false }]

/-- C8 witness: the setter-only theorem at the concrete registry xG2 and
variable connection_id on a freshly forked context. -/
theorem C8_witness :
    (GoRes.err (errValueNotFound ++ xVConnR.getter.name) : GoRes GoValue) =
      GoRes.err (errValueNotFound ++ xVConnR.getter.name) ∧
    (GoRes.err (errValueNotFound ++ xVConnR.getter.name) : GoRes GoValue) =
      GoRes.err (errValueNotFound ++ xVConnR.getter.name) ∧
    (GoRes.ok () : GoRes Unit) = GoRes.ok () ∧
    (GoRes.ok (GoValue.vint 1) : GoRes GoValue) = GoRes.ok (GoValue.vint 1) := by
  have e := C8_setter_only_read_before_write xG2 [] [] xVConnR (GoValue.vint 1) 9
    [xFreshArr] [xFreshArr] [xFreshArr] [xSetArr] [xSetArr]
    { ambient := [], vars := some 0 }
    (GoRes.err (errValueNotFound ++ xVConnR.getter.name))
    (GoRes.err (errValueNotFound ++ xVConnR.getter.name))
    (GoRes.ok (GoValue.vint 1)) (GoRes.ok ()) 1 1 0
    rfl rfl rfl rfl (fun c => rfl) rfl rfl rfl rfl rfl
  exact ⟨e.1, e.2.1, e.2.2.1, e.2.2.2⟩

/-- Witness fixture: a cached string variable with a constantly succeeding
getter and the default string setter, as in TestVariableGetSetCached. -/
def xVCache : Variable :=
  NewStringVariable "cache_getter" GoValue.vnil
    (some (fun _ _ _ => Except.ok "cached")) (some DefaultStringSetter) 0

/-- Witness fixture: registry xG2 plus the cached getter variable. -/
def xGC : Globals := (Register xG2 xVCache).1

/-- Witness fixture: the registered cache_getter descriptor (index 2). -/
def xVCacheR : Variable := (lookup xGC.varMap "cache_getter").getD xVCache

/-- C2 counterexample: on a context initialized by NewVariableContext from
a parent that had already read cache_getter (so the child inherits the
valid cell), two consecutive Gets with no intervening Set invoke the
getter zero times, not exactly once — refuting the claim for such
contexts. -/
theorem C2_counterexample_warmed_fork_zero_calls :
    (Get xGC 9
        (NewVariableContext xGC
          (Get xGC 9 (NewVariableContext xGC [] { ambient := [], vars := none }).1
            (some (NewVariableContext xGC [] { ambient := [], vars := none }).2)
            (VarRef.byVar xVCacheR)).2.1
          (NewVariableContext xGC [] { ambient := [], vars := none }).2).1
        (some (NewVariableContext xGC
          (Get xGC 9 (NewVariableContext xGC [] { ambient := [], vars := none }).1
            (some (NewVariableContext xGC [] { ambient := [], vars := none }).2)
            (VarRef.byVar xVCacheR)).2.1
          (NewVariableContext xGC [] { ambient := [], vars := none }).2).2)
        (VarRef.byVar xVCacheR)).2.2 = 0 ∧ (0 : Nat) ≠ 1 := by
  exact ⟨rfl, by decide⟩

/-- C2 amended: for a getter-backed indexed variable, on a context whose
slot for it is still invalid (e.g. freshly initialized with no inherited
value) and whose getter succeeds: the first Get invokes the getter
exactly once and caches the value, the second Get returns the cached
value with zero getter invocations; and a successful Set between two
Gets makes the second Get return the newly set value with zero getter
invocations. -/
theorem C2_amended_cache_correctness
    (g : Globals) (h : Heap) (c : Ctx) (v : Variable) (p : Nat)
    (values : List IndexedValue) (cell : IndexedValue) (w x : GoValue) (fuel : Nat)
    (hidx : v.isIndexer = true) (hc : c.vars = some p) (hh : h[p]? = some values)
    (hcell : values[v.index]? = some cell) (hinvalid : cell.Valid = false)
    (hvg : g.indexedVariables[v.index]? = some v)
    (hok : GetterImpl.get v.getter (some c.ambient) (some cell) v.data = Except.ok w)
    (hplen : p < h.length) (hvlen : v.index < values.length)
    (hset : ∀ cc, SetterImpl.set v.setter (some c.ambient) cc x =
      Except.ok { data := x, Valid := true }) :
    Get g fuel h (some c) (VarRef.byVar v) =
      (GoRes.ok w, h.set p (values.set v.index { data := w, Valid := true }), 1) ∧
    Get g fuel (h.set p (values.set v.index { data := w, Valid := true })) (some c)
        (VarRef.byVar v) =
      (GoRes.ok w, h.set p (values.set v.index { data := w, Valid := true }), 0) ∧
    Set g (h.set p (values.set v.index { data := w, Valid := true })) (some c)
        (VarRef.byVar v) x =
      (GoRes.ok (), h.set p (values.set v.index { data := x, Valid := true })) ∧
    Get g fuel (h.set p (values.set v.index { data := x, Valid := true })) (some c)
        (VarRef.byVar v) =
      (GoRes.ok x, h.set p (values.set v.index { data := x, Valid := true }), 0) := by
  refine ⟨?_, ?_, ?_, ?_⟩
  · rw [Get_resolved g fuel h c v p values cell hidx hc hh hcell hvg]
    simp [hinvalid, hok]
  · rw [Get_resolved g fuel _ c v p _ { data := w, Valid := true } hidx hc
      (heapAt_set_self h _ p hplen) (by simp [List.getElem?_set_self, hvlen]) hvg]
    simp
  · rw [Set_resolved g _ c v p _ { data := w, Valid := true } x hidx hc
      (heapAt_set_self h _ p hplen) (by simp [List.getElem?_set_self, hvlen]) hvg]
    simp [hset, List.set_set]
  · rw [Get_resolved g fuel _ c v p _ { data := x, Valid := true } hidx hc
      (heapAt_set_self h _ p hplen) (by simp [List.getElem?_set_self, hvlen]) hvg]
    simp

/-- Witness fixture: the all-invalid three-slot array of a fresh xGC
context. -/
def xFreshArr3 : List IndexedValue :=
  List.replicate 3 { data := GoValue.vnil, Valid := false }

/-- C2 witness: the amended cache statement at the concrete registry xGC,
variable cache_getter, on a freshly forked context. -/
theorem C2_amended_witness :
    Get xGC 9 [xFreshArr3] (some { ambient := [], vars := some 0 })
        (VarRef.byVar xVCacheR) =
      (GoRes.ok (GoValue.vstr "cached"),
       [xFreshArr3.set 2 { data := GoValue.vstr "cached", Valid := true }], 1) ∧
    Get xGC 9 [xFreshArr3.set 2 { data := GoValue.vstr "cached", Valid := true }]
        (some { ambient := [], vars := some 0 }) (VarRef.byVar xVCacheR) =
      (GoRes.ok (GoValue.vstr "cached"),
       [xFreshArr3.set 2 { data := GoValue.vstr "cached", Valid := true }], 0) ∧
    Set xGC [xFreshArr3.set 2 { data := GoValue.vstr "cached", Valid := true }]
        (some { ambient := [], vars := some 0 }) (VarRef.byVar xVCacheR)
        (GoValue.vstr "overwrite") =
      (GoRes.ok (),
       [xFreshArr3.set 2 { data := GoValue.vstr "overwrite", Valid := true }]) ∧
    Get xGC 9 [xFreshArr3.set 2 { data := GoValue.vstr "overwrite", Valid := true }]
        (some { ambient := [], vars := some 0 }) (VarRef.byVar xVCacheR) =
      (GoRes.ok (GoValue.vstr "overwrite"),
       [xFreshArr3.set 2 { data := GoValue.vstr "overwrite", Valid := true }], 0) := by
  have e := C2_amended_cache_correctness xGC [xFreshArr3]
    { ambient := [], vars := some 0 } xVCacheR 0 xFreshArr3
    { data := GoValue.vnil, Valid := false } (GoValue.vstr "cached")
    (GoValue.vstr "overwrite") 9 rfl rfl rfl rfl rfl rfl rfl
    (by decide) (by decide) (fun cc => rfl)
  exact e

/-- C6: Set marks the slot invalid before invoking the setter, so a
failing setter invocation leaves the slot invalid — never stale-valid —
and the next Get re-invokes the getter (one getter invocation) instead
of returning the previously cached value. -/
theorem C6_set_invalidates_before_setter
    (g : Globals) (h : Heap) (c : Ctx) (v : Variable) (p : Nat)
    (values : List IndexedValue) (cell : IndexedValue) (x : GoValue) (e : String)
    (fuel : Nat)
    (hidx : v.isIndexer = true) (hc : c.vars = some p) (hh : h[p]? = some values)
    (hcell : values[v.index]? = some cell)
    (hvg : g.indexedVariables[v.index]? = some v)
    (hfail : SetterImpl.set v.setter (some c.ambient) { cell with Valid := false } x =
      Except.error e)
    (hplen : p < h.length) (hvlen : v.index < values.length) :
    Set g h (some c) (VarRef.byVar v) x =
      (GoRes.err e, h.set p (values.set v.index { cell with Valid := false })) ∧
    (values.set v.index { cell with Valid := false })[v.index]? =
      some { cell with Valid := false } ∧
    (Get g fuel (h.set p (values.set v.index { cell with Valid := false })) (some c)
        (VarRef.byVar v)).2.2 = 1 := by
  refine ⟨?_, ?_, ?_⟩
  · rw [Set_resolved g h c v p values cell x hidx hc hh hcell hvg]
    simp [hfail]
  · simp [List.getElem?_set_self, hvlen]
  · rw [Get_resolved g fuel _ c v p _ { cell with Valid := false } hidx hc
      (heapAt_set_self h _ p hplen) (by simp [List.getElem?_set_self, hvlen]) hvg]
    cases hg : GetterImpl.get v.getter (some c.ambient)
        (some { cell with Valid := false }) v.data with
    | error e2 => simp [hg]
    | ok w => simp [hg]

/-- C6 witness: the invalidation statement at registry xGC on a context
whose cache_getter slot is valid (previously cached "cached"), with the
string-typed setter handed the non-string value 7. -/
theorem C6_witness :
    Set xGC [xFreshArr3.set 2 { data := GoValue.vstr "cached", Valid := true }]
        (some { ambient := [], vars := some 0 }) (VarRef.byVar xVCacheR)
        (GoValue.vint 7) =
      (GoRes.err errValueNotString,
       [(xFreshArr3.set 2 { data := GoValue.vstr "cached", Valid := true }).set 2
          { data := GoValue.vstr "cached", Valid := false }]) ∧
    ((xFreshArr3.set 2 { data := GoValue.vstr "cached", Valid := true }).set 2
        { data := GoValue.vstr "cached", Valid := false })[2]? =
      some { data := GoValue.vstr "cached", Valid := false } ∧
    (Get xGC 9
        [(xFreshArr3.set 2 { data := GoValue.vstr "cached", Valid := true }).set 2
          { data := GoValue.vstr "cached", Valid := false }]
        (some { ambient := [], vars := some 0 }) (VarRef.byVar xVCacheR)).2.2 = 1 := by
  have e := C6_set_invalidates_before_setter xGC
    [xFreshArr3.set 2 { data := GoValue.vstr "cached", Valid := true }]
    { ambient := [], vars := some 0 } xVCacheR 0
    (xFreshArr3.set 2 { data := GoValue.vstr "cached", Valid := true })
    { data := GoValue.vstr "cached", Valid := true } (GoValue.vint 7)
    errValueNotString 9 rfl rfl rfl rfl rfl rfl (by decide) (by decide)
  exact e

set_option maxRecDepth 4000 in
/-- C7: Get by name resolves in a fixed order: the exact-match map first;
if absent, the first matching prefix entry's getter is invoked directly
with the full requested name as its data argument, leaving the heap (the
slot caches) untouched; if no prefix matches, the protocol-resource
adapter is consulted, and a failure there surfaces as the
UndefinedVariable error. -/
theorem C7_get_by_name_resolution_order
    (g : Globals) (fuel : Nat) (h : Heap) (ctx : Option Ctx) (name : String) :
    (∀ v, lookup g.varMap name = some v →
      getByName g fuel h ctx name = getByVariable g h ctx v) ∧
    (∀ pv, lookup g.varMap name = none →
      g.prefixVariables.find? (fun p => goHasPrefix name p.1) = some pv →
      getByName g fuel h ctx name =
        (match GetterImpl.get pv.2.getter (Option.map Ctx.ambient ctx) none
            (GoValue.vstr name) with
         | Except.ok w => GoRes.ok w
         | Except.error e => GoRes.err e, h, 1)) ∧
    (lookup g.varMap name = none →
      g.prefixVariables.find? (fun p => goHasPrefix name p.1) = none →
      (∀ s h2 n, GetProtocolResource g fuel h ctx name [] = (GoRes.ok s, h2, n) →
        getByName g fuel h ctx name = (GoRes.ok (GoValue.vstr s), h2, n)) ∧
      (∀ e h2 n, GetProtocolResource g fuel h ctx name [] = (GoRes.err e, h2, n) →
        getByName g fuel h ctx name =
          (GoRes.err (errUndefinedVariable ++ name), h2, n))) := by
  refine ⟨?_, ?_, ?_⟩
  · intro v hv
    simp only [getByName, hv]
  · intro pv hv hpre
    simp only [getByName, hv, hpre]
  · intro hv hpre
    constructor
    · intro s h2 n hGPR
      simp only [GetProtocolResource] at hGPR
      cases hT : protocolResourceTarget g (Option.map Ctx.ambient ctx) name [] with
      | error e0 =>
        rw [hT] at hGPR
        simp at hGPR
      | ok vn =>
        rw [hT] at hGPR
        cases fuel with
        | zero => exact GoRes.noConfusion (congrArg Prod.fst hGPR)
        | succ f2 =>
          dsimp only at hGPR
          rw [getByName.eq_def]
          simp only [hv, hpre, hT]
          rw [hGPR]
    · intro e h2 n hGPR
      simp only [GetProtocolResource] at hGPR
      cases hT : protocolResourceTarget g (Option.map Ctx.ambient ctx) name [] with
      | error e0 =>
        rw [hT] at hGPR
        simp at hGPR
        obtain ⟨he, hh2, hn⟩ := hGPR
        simp only [getByName, hv, hpre, hT]
        rw [hh2, hn]
      | ok vn =>
        rw [hT] at hGPR
        cases fuel with
        | zero => exact GoRes.noConfusion (congrArg Prod.fst hGPR)
        | succ f2 =>
          dsimp only at hGPR
          rw [getByName.eq_def]
          simp only [hv, hpre, hT]
          rw [hGPR]

/-- Witness fixture: a prefix-registered getter variable. -/
def xVPre : Variable :=
  NewStringVariable "pre_" GoValue.vnil (some (fun _ _ _ => Except.ok "pv")) none 0

/-- Witness fixture: registry xGC with the prefix "pre_" registered. -/
def xGP7 : Globals := (RegisterPrefixVariable xGC "pre_" xVPre).1

/-- C7 witness: the three resolution branches at concrete registries: an
exact-map hit (connection_id), a prefix hit (pre_abc under "pre_", getter
invoked with the full name, heap untouched), and an adapter miss
(unknown, surfacing UndefinedVariable). -/
theorem C7_witness :
    getByName xGC 9 [] none xNameConn = getByVariable xGC [] none xVConnR ∧
    getByName xGP7 9 [] none "pre_abc" = (GoRes.ok (GoValue.vstr "pv"), [], 1) ∧
    getByName xGC 9 [] none "unknown" =
      (GoRes.err (errUndefinedVariable ++ "unknown"), [], 0) := by
  refine ⟨?_, ?_, ?_⟩
  · exact (C7_get_by_name_resolution_order xGC 9 [] none xNameConn).1 xVConnR rfl
  · exact ((C7_get_by_name_resolution_order xGP7 9 [] none "pre_abc").2.1
      ("pre_", xVPre) rfl rfl).trans rfl
  · exact ((C7_get_by_name_resolution_order xGC 9 [] none "unknown").2.2 rfl rfl).2
      errNoGetProtocolMsg [] 0 rfl

/-- C9: RegisterProtocolResource stores the composed backing name
protocol ++ "_" ++ varname under the key protocol ++ resource; on a
context resolving to that protocol, GetProtocolResource delegates to the
string-typed Get (GetString by name) of the composed backing name, with
the suffix appended only when exactly one trailing argument is given (two
or more are silently ignored); the bare varname is never looked up — the
delegation target is always the composed name. -/
theorem C9_protocol_resource_composition
    (g g2 : Globals) (p r n suf : String) (h : Heap) (ctx : Option Ctx)
    (fuel : Nat) (gp : Option Ambient → Except String String)
    (hfresh : lookup g.protocolVar (convert p r) = none)
    (hreg : RegisterProtocolResource g p r n = (g2, Except.ok ()))
    (hgp : g2.getProtocol = some gp)
    (hp : gp (Option.map Ctx.ambient ctx) = Except.ok p) :
    lookup g2.protocolVar (convert p r) = some (p ++ "_" ++ n) ∧
    GetProtocolResource g2 (Nat.succ fuel) h ctx r [GoValue.vstr suf] =
      GetString g2 fuel h ctx (VarRef.byName (p ++ "_" ++ n ++ suf)) ∧
    GetProtocolResource g2 (Nat.succ fuel) h ctx r [] =
      GetString g2 fuel h ctx (VarRef.byName (p ++ "_" ++ n)) ∧
    (∀ d1 d2, GetProtocolResource g2 (Nat.succ fuel) h ctx r [d1, d2] =
      GetString g2 fuel h ctx (VarRef.byName (p ++ "_" ++ n))) := by
  simp only [RegisterProtocolResource, hfresh] at hreg
  injection hreg with e1 e2
  subst e1
  have hlook : lookup ((convert p r, p ++ "_" ++ n) :: g.protocolVar) (convert p r) =
      some (p ++ "_" ++ n) := by
    simp [lookup]
  simp only at hgp
  refine ⟨hlook, ?_, ?_, ?_⟩
  · simp only [GetProtocolResource, protocolResourceTarget, hgp, hp, hlook]
    simp [GetString, Get, goFormatS]
  · simp only [GetProtocolResource, protocolResourceTarget, hgp, hp, hlook]
    simp [GetString, Get]
  · intro d1 d2
    simp only [GetProtocolResource, protocolResourceTarget, hgp, hp, hlook]
    simp [GetString, Get]

/-- Witness fixture: xGC with the GetProtocol hook resolving to Http1. -/
def xGPbase : Globals :=
  { xGC with getProtocol := some (fun _ => Except.ok "Http1") }

/-- Witness fixture: xGPbase with the URI resource registered for Http1
backed by request_uri. -/
def xGP9 : Globals :=
  (RegisterProtocolResource xGPbase "Http1" "URI" "request_uri").1

/-- C9 witness: the protocol-resource composition at the concrete
registry xGP9 with protocol Http1, resource URI, backing name
request_uri, and suffix "?q". -/
theorem C9_witness :
    lookup xGP9.protocolVar (convert "Http1" "URI") =
      some ("Http1" ++ "_" ++ "request_uri") ∧
    GetProtocolResource xGP9 (Nat.succ 5) [] none "URI" [GoValue.vstr "?q"] =
      GetString xGP9 5 [] none
        (VarRef.byName ("Http1" ++ "_" ++ "request_uri" ++ "?q")) ∧
    GetProtocolResource xGP9 (Nat.succ 5) [] none "URI" [] =
      GetString xGP9 5 [] none (VarRef.byName ("Http1" ++ "_" ++ "request_uri")) ∧
    GetProtocolResource xGP9 (Nat.succ 5) [] none "URI"
        [GoValue.vint 1, GoValue.vint 2] =
      GetString xGP9 5 [] none (VarRef.byName ("Http1" ++ "_" ++ "request_uri")) := by
  have e := C9_protocol_resource_composition xGPbase xGP9 "Http1" "URI" "request_uri"
    "?q" [] none 5 (fun _ => Except.ok "Http1") rfl rfl rfl rfl
  exact ⟨e.1, e.2.1, e.2.2.1, e.2.2.2 (GoValue.vint 1) (GoValue.vint 2)⟩

/-- C5: Override on a registered name: if the old variable was indexed and
the new one has a setter, the new descriptor inherits the old index
(stored under the name and in the index table), and in every context the
slot is aliased: a value set through the new descriptor is read back
through the old one and vice versa (the index table entry's setter is
used either way); if the old variable had no setter and the new one has
one, a fresh index at the end of the table is assigned. -/
theorem C5_override_index_reuse_and_aliasing
    (g g2 : Globals) (name : String) (v1 v2 : Variable) (res : Except String Unit)
    (fuel : Nat)
    (hv1 : lookup g.varMap name = some v1)
    (hname : v2.name = name)
    (hidx2 : v2.isIndexer = true)
    (hov : Override g v2 = (g2, res)) :
    (v1.isIndexer = true → v1.index < g.indexedVariables.length →
      res = Except.ok () ∧
      lookup g2.varMap name = some { v2 with index := v1.index } ∧
      ({ v2 with index := v1.index } : Variable).index = v1.index ∧
      g2.indexedVariables[v1.index]? = some { v2 with index := v1.index } ∧
      (∀ h c p values cell x, c.vars = some p → h[p]? = some values →
        values[v1.index]? = some cell → p < h.length → v1.index < values.length →
        (∀ cc, SetterImpl.set v2.setter (some c.ambient) cc x =
          Except.ok { data := x, Valid := true }) →
        (Get g2 fuel (Set g2 h (some c)
            (VarRef.byVar { v2 with index := v1.index }) x).2 (some c)
            (VarRef.byVar v1)).1 = GoRes.ok x) ∧
      (∀ h c p values cell x, c.vars = some p → h[p]? = some values →
        values[v1.index]? = some cell → p < h.length → v1.index < values.length →
        (∀ cc, SetterImpl.set v2.setter (some c.ambient) cc x =
          Except.ok { data := x, Valid := true }) →
        (Get g2 fuel (Set g2 h (some c) (VarRef.byVar v1) x).2 (some c)
            (VarRef.byVar { v2 with index := v1.index })).1 = GoRes.ok x)) ∧
    (v1.isIndexer = false →
      res = Except.ok () ∧
      lookup g2.varMap name =
        some { v2 with index := g.indexedVariables.length } ∧
      g2.indexedVariables =
        g.indexedVariables ++ [{ v2 with index := g.indexedVariables.length }]) := by
  obtain ⟨vg, vs, vn, vd, vf, vi, vix⟩ := v2
  simp only at hname hidx2
  subst hname
  subst hidx2
  constructor
  · intro hidx1 hlt1
    simp only [Override, hv1, hidx1, if_true] at hov
    injection hov with e1 e2
    subst e1
    subst e2
    have hvg2 : ({ g with
        varMap := updateAssoc g.varMap vn (Variable.mk vg vs vn vd vf true v1.index),
        indexedVariables :=
          g.indexedVariables.set v1.index (Variable.mk vg vs vn vd vf true v1.index)
        } : Globals).indexedVariables[v1.index]? =
        some (Variable.mk vg vs vn vd vf true v1.index) := by
      simp [List.getElem?_set_self, hlt1]
    refine ⟨rfl, lookup_updateAssoc g.varMap vn _ v1 hv1, rfl, hvg2, ?_, ?_⟩
    · intro h c p values cell x hc hh hcell hplen hvlen hset
      rw [Set_resolved_table _ h c (Variable.mk vg vs vn vd vf true v1.index)
        (Variable.mk vg vs vn vd vf true v1.index) p values cell x rfl hc hh hcell hvg2]
      simp only at hset
      simp only [hset]
      rw [Get_resolved_hit _ fuel _ c v1 p _ { data := x, Valid := true } hidx1 hc
        (heapAt_set_self h _ p hplen) (by simp [List.getElem?_set_self, hvlen]) rfl]
    · intro h c p values cell x hc hh hcell hplen hvlen hset
      rw [Set_resolved_table _ h c v1 (Variable.mk vg vs vn vd vf true v1.index)
        p values cell x hidx1 hc hh hcell hvg2]
      simp only at hset
      simp only [hset]
      rw [Get_resolved_hit _ fuel _ c (Variable.mk vg vs vn vd vf true v1.index) p _
        { data := x, Valid := true } rfl hc (heapAt_set_self h _ p hplen)
        (by simp [List.getElem?_set_self, hvlen]) rfl]
  · intro hidx1
    simp only [Override, hv1, hidx1, if_true, Bool.false_eq_true, if_false] at hov
    injection hov with e1 e2
    subst e1
    subst e2
    exact ⟨rfl, lookup_updateAssoc g.varMap vn _ v1 hv1, rfl⟩

/-- Witness fixture: an override candidate for connection_id carrying both
a getter and the default setter. -/
def xV5 : Variable :=
  NewVariable xNameConn GoValue.vnil
    (some (fun _ _ _ => Except.ok (GoValue.vstr "g"))) (some DefaultSetter) 0

/-- Witness fixture: xG2 after Override of connection_id by xV5. -/
def xGO5 : Globals := (Override xG2 xV5).1

/-- Witness fixture: the stored overridden connection_id descriptor. -/
def xV5R : Variable := (lookup xGO5.varMap xNameConn).getD xV5

/-- Witness fixture: a getter-only (non-indexed) variable. -/
def xVGet : Variable :=
  NewStringVariable "getter_only" GoValue.vnil
    (some (fun _ _ _ => Except.ok "v")) none 0

/-- Witness fixture: xGC plus the getter-only variable. -/
def xGB : Globals := (Register xGC xVGet).1

/-- Witness fixture: the registered getter-only descriptor. -/
def xVGetR : Variable := (lookup xGB.varMap "getter_only").getD xVGet

/-- Witness fixture: an override candidate for getter_only that adds a
setter. -/
def xV6 : Variable :=
  NewStringVariable "getter_only" GoValue.vnil
    (some (fun _ _ _ => Except.ok "v")) (some DefaultStringSetter) 0

/-- Witness fixture: xGB after Override of getter_only by xV6. -/
def xGO6 : Globals := (Override xGB xV6).1

/-- Witness fixture: the stored overridden getter_only descriptor. -/
def xV6R : Variable := (lookup xGO6.varMap "getter_only").getD xV6

/-- C5 witness: index inheritance and slot aliasing at the concrete
registry xG2 (connection_id overridden by xV5, index 0 reused; values set
through either descriptor readable through the other), and fresh index
assignment when the old variable had no setter (getter_only, index 3
appended). -/
theorem C5_witness :
    lookup xGO5.varMap xNameConn = some xV5R ∧
    xV5R.index = xVConnR.index ∧
    (Get xGO5 9 (Set xGO5 [xFreshArr] (some { ambient := [], vars := some 0 })
        (VarRef.byVar xV5R) (GoValue.vint 5)).2
        (some { ambient := [], vars := some 0 }) (VarRef.byVar xVConnR)).1 =
      GoRes.ok (GoValue.vint 5) ∧
    (Get xGO5 9 (Set xGO5 [xFreshArr] (some { ambient := [], vars := some 0 })
        (VarRef.byVar xVConnR) (GoValue.vint 5)).2
        (some { ambient := [], vars := some 0 }) (VarRef.byVar xV5R)).1 =
      GoRes.ok (GoValue.vint 5) ∧
    lookup xGO6.varMap "getter_only" = some xV6R ∧
    xGO6.indexedVariables = xGB.indexedVariables ++ [xV6R] := by
  have eA := C5_override_index_reuse_and_aliasing xG2 xGO5 xNameConn xVConnR xV5
    (Except.ok ()) 9 rfl rfl rfl rfl
  have hA := eA.1 rfl (by decide)
  have eB := C5_override_index_reuse_and_aliasing xGB xGO6 "getter_only" xVGetR xV6
    (Except.ok ()) 9 rfl rfl rfl rfl
  have hB := eB.2 rfl
  refine ⟨hA.2.1, rfl, ?_, ?_, hB.2.1, hB.2.2⟩
  · exact hA.2.2.2.2.1 [xFreshArr] { ambient := [], vars := some 0 } 0 xFreshArr
      { data := GoValue.vnil, Valid := false } (GoValue.vint 5) rfl rfl rfl
      (by decide) (by decide) (fun cc => rfl)
  · exact hA.2.2.2.2.2 [xFreshArr] { ambient := [], vars := some 0 } 0 xFreshArr
      { data := GoValue.vnil, Valid := false } (GoValue.vint 5) rfl rfl rfl
      (by decide) (by decide) (fun cc => rfl)

set_option maxHeartbeats 1000000 in
/-- C1: copy-on-fork isolation.  For an indexed variable v present in both
the registry table and the parent's slot array: immediately after
C := NewVariableContext(P), Get(C, v) returns what Get(P, v) returned at
fork time; Set(C, v, x) leaves Get(P, v) unchanged; Set(P, v, y)
post-fork leaves Get(C, v) unchanged; and a second NewVariableContext(P)
yields a context whose Set does not affect Get on C. -/
theorem C1_fork_isolation
    (g : Globals) (h : Heap) (P : Ctx) (p : Nat) (arr : List IndexedValue)
    (v : Variable) (x y : GoValue) (fuel : Nat)
    (hidx : v.isIndexer = true)
    (hP : P.vars = some p) (hp : p < h.length) (harr : h[p]? = some arr)
    (hvi : v.index < arr.length) (hvg : v.index < g.indexedVariables.length) :
    (Get g fuel (NewVariableContext g h P).1 (some (NewVariableContext g h P).2)
        (VarRef.byVar v)).1 = (Get g fuel h (some P) (VarRef.byVar v)).1 ∧
    (Get g fuel (Set g (NewVariableContext g h P).1
        (some (NewVariableContext g h P).2) (VarRef.byVar v) x).2 (some P)
        (VarRef.byVar v)).1 =
      (Get g fuel (NewVariableContext g h P).1 (some P) (VarRef.byVar v)).1 ∧
    (Get g fuel (Set g (NewVariableContext g h P).1 (some P) (VarRef.byVar v) y).2
        (some (NewVariableContext g h P).2) (VarRef.byVar v)).1 =
      (Get g fuel (NewVariableContext g h P).1
        (some (NewVariableContext g h P).2) (VarRef.byVar v)).1 ∧
    (Get g fuel (Set g (NewVariableContext g (NewVariableContext g h P).1 P).1
        (some (NewVariableContext g (NewVariableContext g h P).1 P).2)
        (VarRef.byVar v) x).2
        (some (NewVariableContext g h P).2) (VarRef.byVar v)).1 =
      (Get g fuel (NewVariableContext g (NewVariableContext g h P).1 P).1
        (some (NewVariableContext g h P).2) (VarRef.byVar v)).1 := by
  have hCdef := NewVariableContext_some g h P p arr hP harr
  rw [hCdef]
  have harr2 : (h ++ [goCopy (List.replicate g.indexedVariables.length
      { data := GoValue.vnil, Valid := false }) arr])[p]? = some arr := by
    rw [heapAt_append_lt h _ p hp]
    exact harr
  have hC2def := NewVariableContext_some g
    (h ++ [goCopy (List.replicate g.indexedVariables.length
      { data := GoValue.vnil, Valid := false }) arr]) P p arr hP harr2
  rw [hC2def]
  have hcopyAt : (goCopy (List.replicate g.indexedVariables.length
      { data := GoValue.vnil, Valid := false }) arr)[v.index]? = arr[v.index]? :=
    goCopy_getElem _ arr v.index (by simp [List.length_replicate, hvg]) hvi
  have hCAt : (h ++ [goCopy (List.replicate g.indexedVariables.length
      { data := GoValue.vnil, Valid := false }) arr])[h.length]? =
      some (goCopy (List.replicate g.indexedVariables.length
        { data := GoValue.vnil, Valid := false }) arr) := heapAt_append h _
  refine ⟨?_, ?_, ?_, ?_⟩
  · -- fork-time read equality
    rw [Get_byVar_indexed g fuel _ _ v hidx, Get_byVar_indexed g fuel h P v hidx]
    dsimp only
    cases hcell : arr[v.index]? with
    | none =>
      simp only [getFlushedValue, hP, harr, hcell, hCAt, hcopyAt]
    | some cell =>
      rw [getFlushedValue_resolve g _ _ h.length _ cell v.index rfl hCAt
        (hcopyAt.trans hcell),
        getFlushedValue_resolve g h P p arr cell v.index hP harr hcell]
      cases hval : cell.Valid with
      | true => simp [hval]
      | false =>
        simp only [hval, Bool.false_eq_true, if_false]
        exact (getIndexedValue_fst g _ h _ P h.length p _ arr cell v.index rfl).1
  · -- Set(C) does not affect Get(P)
    rw [Get_byVar_indexed g fuel _ P v hidx, Get_byVar_indexed g fuel _ P v hidx]
    exact (getFlushedValue_congr g _ _ P P p p v.index hP hP rfl
      (Set_heap_preserves g _ _ v x h.length p rfl (Nat.ne_of_lt hp))).1
  · -- Set(P) does not affect Get(C)
    rw [Get_byVar_indexed g fuel _ _ v hidx, Get_byVar_indexed g fuel _ _ v hidx]
    exact (getFlushedValue_congr g _ _ _ _ h.length h.length v.index rfl rfl rfl
      (Set_heap_preserves g _ P v y p h.length hP (Nat.ne_of_gt hp))).1
  · -- Set(second child) does not affect Get(C)
    rw [Get_byVar_indexed g fuel _ _ v hidx, Get_byVar_indexed g fuel _ _ v hidx]
    exact (getFlushedValue_congr g _ _ _ _ h.length h.length v.index rfl rfl rfl
      (Set_heap_preserves g _ _ v x
        (h ++ [goCopy (List.replicate g.indexedVariables.length
          { data := GoValue.vnil, Valid := false }) arr]).length h.length rfl
        (by simp))).1

/-- Witness fixture: a parent slot array with connection_id cached as 1. -/
def xWarmArr : List IndexedValue :=
  [{ data := GoValue.vint 1, Valid := true }, { data := GoValue.vnil, Valid := false }]

/-- C1 witness: fork isolation at the concrete registry xG2 with a parent
holding connection_id = 1, child set to 2, parent set to 7. -/
theorem C1_witness :
    (Get xG2 9 (NewVariableContext xG2 [xWarmArr] { ambient := [], vars := some 0 }).1
        (some (NewVariableContext xG2 [xWarmArr] { ambient := [], vars := some 0 }).2)
        (VarRef.byVar xVConnR)).1 =
      (Get xG2 9 [xWarmArr] (some { ambient := [], vars := some 0 })
        (VarRef.byVar xVConnR)).1 ∧
    (Get xG2 9 (Set xG2
        (NewVariableContext xG2 [xWarmArr] { ambient := [], vars := some 0 }).1
        (some (NewVariableContext xG2 [xWarmArr] { ambient := [], vars := some 0 }).2)
        (VarRef.byVar xVConnR) (GoValue.vint 2)).2
        (some { ambient := [], vars := some 0 }) (VarRef.byVar xVConnR)).1 =
      (Get xG2 9 (NewVariableContext xG2 [xWarmArr] { ambient := [], vars := some 0 }).1
        (some { ambient := [], vars := some 0 }) (VarRef.byVar xVConnR)).1 ∧
    (Get xG2 9 (Set xG2
        (NewVariableContext xG2 [xWarmArr] { ambient := [], vars := some 0 }).1
        (some { ambient := [], vars := some 0 }) (VarRef.byVar xVConnR)
        (GoValue.vint 7)).2
        (some (NewVariableContext xG2 [xWarmArr] { ambient := [], vars := some 0 }).2)
        (VarRef.byVar xVConnR)).1 =
      (Get xG2 9 (NewVariableContext xG2 [xWarmArr] { ambient := [], vars := some 0 }).1
        (some (NewVariableContext xG2 [xWarmArr] { ambient := [], vars := some 0 }).2)
        (VarRef.byVar xVConnR)).1 ∧
    (Get xG2 9 (Set xG2
        (NewVariableContext xG2
          (NewVariableContext xG2 [xWarmArr] { ambient := [], vars := some 0 }).1
          { ambient := [], vars := some 0 }).1
        (some (NewVariableContext xG2
          (NewVariableContext xG2 [xWarmArr] { ambient := [], vars := some 0 }).1
          { ambient := [], vars := some 0 }).2)
        (VarRef.byVar xVConnR) (GoValue.vint 2)).2
        (some (NewVariableContext xG2 [xWarmArr] { ambient := [], vars := some 0 }).2)
        (VarRef.byVar xVConnR)).1 =
      (Get xG2 9 (NewVariableContext xG2
          (NewVariableContext xG2 [xWarmArr] { ambient := [], vars := some 0 }).1
          { ambient := [], vars := some 0 }).1
        (some (NewVariableContext xG2 [xWarmArr] { ambient := [], vars := some 0 }).2)
        (VarRef.byVar xVConnR)).1 :=
  C1_fork_isolation xG2 [xWarmArr] { ambient := [], vars := some 0 } 0 xWarmArr
    xVConnR (GoValue.vint 2) (GoValue.vint 7) 9 rfl rfl (by decide) rfl
    (by decide) (by decide)

end Mosn
